import Mathlib

/-!
Verification of the sparse contingency-table / clustering-agreement engine
of `lsh_hdc.metrics` (file `src/lsh_hdc/metrics.py`).

The Python code is shallowly embedded: Python floats are idealized as exact
rationals (`ℚ`) except where a square root genuinely occurs, in which case the
value lives in `ℝ`.  A Python float result that may be NaN or a signed
infinity is represented by the inductive type `PyFloat` (rational payload) or
`PyFloatR` (real payload), mirroring the conventions of the `_div` primitive.
Python exceptions are represented with `Except PyError`.
-/

namespace LshHdc

/-- Exception classes thrown (or claimed to be thrown) by the Python code.
`valueError` and `zeroDivisionError` are Python built-ins raised by the
source; `attributeError` is the built-in raised by a failed `getattr`.
`metricNotFoundError` has no counterpart anywhere in the source: the spec
posits a distinct "unknown metric" error class of that name, and the
constructor exists here only so that the spec's statement can be formalized
and compared with what the code actually raises. -/
inductive PyError where
  | valueError
  | zeroDivisionError
  | attributeError
  | metricNotFoundError
  deriving DecidableEq, Repr

/-- A Python float value that may be NaN or a signed infinity, with the
finite payload idealized as an exact rational. -/
inductive PyFloat where
  | nan
  | pinf
  | ninf
  | val (q : ℚ)
  deriving DecidableEq, Repr

/-- A Python float value (possibly NaN / signed infinity) whose finite
payload is a real number; used where the source applies `math.sqrt`. -/
inductive PyFloatR where
  | nan
  | pinf
  | ninf
  | val (x : ℝ)

/-- Binomial coefficient for k=2 (`nchoose2` in the source):
`(n * (n - 1)) >> 1`. On natural `n` the product `n * (n - 1)` is even, so
the right shift is exact halving. -/
def nchoose2 (n : ℕ) : ℕ :=
  (n * (n - 1)) / 2

/-- `_div` from the source: divide without raising a zero-division error.
If the denominator is 0, returns NaN when the numerator is 0, `+Inf` when it
is positive and `-Inf` when it is negative; otherwise the exact quotient. -/
def pydiv (numer denom : ℚ) : PyFloat :=
  if denom = 0 then
    if numer = 0 then .nan
    else if numer > 0 then .pinf
    else .ninf
  else .val (numer / denom)

/-- Embedding of `_div(numer, sqrt(radicand))`, the combination used by
coefficients such as `matthews_corr` and `ochiai_coeff`.  `math.sqrt` raises
`ValueError` on a negative argument; for a nonnegative argument,
`sqrt radicand = 0` exactly when `radicand = 0`, which lets `_div`'s
zero-denominator test be carried out on the (integer) radicand. -/
noncomputable def divSqrt (numer radicand : ℤ) : Except PyError PyFloatR :=
  if radicand < 0 then .error .valueError
  else if radicand = 0 then
    if numer = 0 then .ok .nan
    else if numer > 0 then .ok .pinf
    else .ok .ninf
  else .ok (.val ((numer : ℝ) / Real.sqrt (radicand : ℝ)))

/-- Python float equality on `PyFloat` values: NaN compares unequal to
everything (itself included); infinities compare equal only to themselves. -/
def pyEq : PyFloat → PyFloat → Bool
  | .val a, .val b => a == b
  | .pinf, .pinf => true
  | .ninf, .ninf => true
  | _, _ => false

/-- Python float negation on `PyFloat` values. -/
def pyNeg : PyFloat → PyFloat
  | .nan => .nan
  | .pinf => .ninf
  | .ninf => .pinf
  | .val q => .val (-q)

/-- Python float addition on `PyFloat` values: NaN absorbs, opposite
infinities give NaN, an infinity otherwise wins. -/
def pyAdd : PyFloat → PyFloat → PyFloat
  | .nan, _ => .nan
  | _, .nan => .nan
  | .pinf, .ninf => .nan
  | .ninf, .pinf => .nan
  | .pinf, _ => .pinf
  | _, .pinf => .pinf
  | .ninf, _ => .ninf
  | _, .ninf => .ninf
  | .val a, .val b => .val (a + b)

/-- Python float subtraction on `PyFloat` values. -/
def pySub (a b : PyFloat) : PyFloat :=
  pyAdd a (pyNeg b)

/-- Python float multiplication on `PyFloat` values: NaN absorbs, infinity
times zero is NaN, otherwise infinities follow the sign rules (the sign of
an exact rational zero is positive, as `PyFloat` carries no negative
zero). -/
def pyMul : PyFloat → PyFloat → PyFloat
  | .nan, _ => .nan
  | _, .nan => .nan
  | .pinf, .pinf => .pinf
  | .pinf, .ninf => .ninf
  | .ninf, .pinf => .ninf
  | .ninf, .ninf => .pinf
  | .pinf, .val b => if b = 0 then .nan else if 0 < b then .pinf else .ninf
  | .ninf, .val b => if b = 0 then .nan else if 0 < b then .ninf else .pinf
  | .val a, .pinf => if a = 0 then .nan else if 0 < a then .pinf else .ninf
  | .val a, .ninf => if a = 0 then .nan else if 0 < a then .ninf else .pinf
  | .val a, .val b => .val (a * b)

/-- Python float division on `PyFloat` values for a denominator that is not
exactly zero (callers check the zero case first, since plain `/` raises
`ZeroDivisionError` there while `_div` branches on it): NaN absorbs,
infinity over infinity is NaN, a finite value over an infinity is zero. -/
def pyDivIEEE : PyFloat → PyFloat → PyFloat
  | .nan, _ => .nan
  | _, .nan => .nan
  | .pinf, .pinf => .nan
  | .pinf, .ninf => .nan
  | .ninf, .pinf => .nan
  | .ninf, .ninf => .nan
  | .pinf, .val b => if 0 ≤ b then .pinf else .ninf
  | .ninf, .val b => if 0 ≤ b then .ninf else .pinf
  | .val _, .pinf => .val 0
  | .val _, .ninf => .val 0
  | .val a, .val b => .val (a / b)

/-- `_div` applied to Python float operands (as in `PLL` and `NLL`): the
`denom == 0` test is true only at exact zero; in that branch `numer == 0`
and `numer > 0` are both false for NaN and for `-Inf`, so those fall to the
`-Inf` result, and `+Inf` satisfies `numer > 0`. -/
def pydivF (numer denom : PyFloat) : PyFloat :=
  if denom = .val 0 then
    match numer with
    | .val q => if q = 0 then .nan else if 0 < q then .pinf else .ninf
    | .pinf => .pinf
    | .ninf => .ninf
    | .nan => .ninf
  else pyDivIEEE numer denom

/-- Plain Python `/` on float operands: raises `ZeroDivisionError` when the
denominator is exactly zero, otherwise IEEE division. -/
def pyDivRaise (a b : PyFloat) : Except PyError PyFloat :=
  if b = .val 0 then .error .zeroDivisionError
  else .ok (pyDivIEEE a b)

/-- The value computed by `centropy(counts)` for counts that pass the
domain check: `n * ln n - Σ c * ln c` over nonzero `c` (zero counts are
skipped), and `0.0` when the total `n` is 0. -/
noncomputable def centropyVal (counts : List ℤ) : ℝ :=
  if counts.sum = 0 then 0
  else ((counts.sum : ℤ) : ℝ) * Real.log ((counts.sum : ℤ) : ℝ) -
    (counts.map (fun c =>
      if c = 0 then (0 : ℝ) else (c : ℝ) * Real.log (c : ℝ))).sum

/-- `centropy(counts)`: `math.log` raises `ValueError` on a negative
count (zero counts are skipped before the logarithm); otherwise the
entropy value `n * ln n - Σ c * ln c`. -/
noncomputable def centropy (counts : List ℤ) : Except PyError ℝ :=
  if counts.any (fun c => c < 0) then .error .valueError
  else .ok (centropyVal counts)

/-- `_entropies` followed by `entropy_metrics`, over explicit count lists:
`H_C = centropy(row_totals)`, `H_K = centropy(col_totals)`,
`H_actual = centropy(cells)` (evaluated in that order, so the first
`ValueError` propagates), `I = H_C + H_K - H_actual`, homogeneity
`h = 1.0` if `H_C == 0` else `max(0, I / H_C)`, completeness `c` dually,
and the V-measure as `harmonic_mean(h, c)`. -/
noncomputable def entropy_metrics_core (rowT colT cells : List ℤ) :
    Except PyError (ℝ × ℝ × ℝ) :=
  match centropy rowT with
  | .error e => .error e
  | .ok hc =>
    match centropy colT with
    | .error e => .error e
    | .ok hk =>
      match centropy cells with
      | .error e => .error e
      | .ok ha =>
        let i := hc + hk - ha
        let h := if hc = 0 then 1 else max 0 (i / hc)
        let c := if hk = 0 then 1 else max 0 (i / hk)
        .ok (h, c, if h = c then h else 2 * (h * c) / (h + c))

/-- `ConfusionMatrix2`: a 2x2 contingency table with named quadrants, built
as `rows=((TP, FN), (FP, TN))`.  Cells are Python integers, hence `ℤ`. -/
structure ConfusionMatrix2 where
  TP : ℤ
  FN : ℤ
  FP : ℤ
  TN : ℤ
  deriving DecidableEq, Repr

namespace ConfusionMatrix2

/-- `from_ccw(TP, FP, TN, FN)` constructs the matrix as `cls(TP, FN, FP, TN)`. -/
def from_ccw (tp fp tn fn : ℤ) : ConfusionMatrix2 :=
  ⟨tp, fn, fp, tn⟩

/-- Grand total of the table (`TableOfCounts.grand_total`, the sum of the
four cells). -/
def grand_total (m : ConfusionMatrix2) : ℤ :=
  m.TP + m.FN + m.FP + m.TN

/-- First row total `p1` (first element of `row_totals.values()`). -/
def p1 (m : ConfusionMatrix2) : ℤ := m.TP + m.FN

/-- Second row total `q1` (second element of `row_totals.values()`). -/
def q1 (m : ConfusionMatrix2) : ℤ := m.FP + m.TN

/-- First column total `p2` (first element of `col_totals.values()`). -/
def p2 (m : ConfusionMatrix2) : ℤ := m.TP + m.FP

/-- Second column total `q2` (second element of `col_totals.values()`). -/
def q2 (m : ConfusionMatrix2) : ℤ := m.FN + m.TN

/-- `covar`: determinant of the 2x2 matrix, `TP * TN - FP * FN`. -/
def covar (m : ConfusionMatrix2) : ℤ :=
  m.TP * m.TN - m.FP * m.FN

/-- `kappa`: Cohen's kappa.  NaN when a single cell equals the grand total;
0.0 when some margin is zero (and the first branch did not fire); otherwise
`_div(2 * covar, p1 * q2 + p2 * q1)`. -/
def kappa (m : ConfusionMatrix2) : PyFloat :=
  if m.TP = m.grand_total ∨ m.FN = m.grand_total ∨
     m.FP = m.grand_total ∨ m.TN = m.grand_total then .nan
  else if m.p1 = 0 ∨ m.p2 = 0 ∨ m.q1 = 0 ∨ m.q2 = 0 then .val 0
  else pydiv (2 * m.covar) (m.p1 * m.q2 + m.p2 * m.q1)

/-- `matthews_corr`: Matthews correlation coefficient.  Same two edge-case
branches as `kappa`; otherwise `_div(covar, sqrt(p1 * q1 * p2 * q2))`. -/
noncomputable def matthews_corr (m : ConfusionMatrix2) : Except PyError PyFloatR :=
  if m.TP = m.grand_total ∨ m.FN = m.grand_total ∨
     m.FP = m.grand_total ∨ m.TN = m.grand_total then .ok .nan
  else if m.p1 = 0 ∨ m.p2 = 0 ∨ m.q1 = 0 ∨ m.q2 = 0 then .ok (.val 0)
  else divSqrt m.covar (m.p1 * m.q1 * m.p2 * m.q2)

/-- `jaccard_coeff`: `_div(TP, TP + FP + FN)`. -/
def jaccard_coeff (m : ConfusionMatrix2) : PyFloat :=
  pydiv m.TP (m.TP + m.FP + m.FN)

/-- `dice_coeff`: `_div(2 * a, 2 * a + FN + FP)` with `a = TP`. -/
def dice_coeff (m : ConfusionMatrix2) : PyFloat :=
  pydiv (2 * m.TP) (2 * m.TP + m.FN + m.FP)

/-- `ochiai_coeff`: `_div(a, sqrt((a + b) * (a + c)))` with
`a = TP, b = FN, c = FP`. -/
noncomputable def ochiai_coeff (m : ConfusionMatrix2) : Except PyError PyFloatR :=
  divSqrt m.TP ((m.TP + m.FN) * (m.TP + m.FP))

/-- Transpose of the 2x2 table: rows and columns swapped, i.e. FN and FP
exchanged while TP and TN stay fixed. -/
def transpose (m : ConfusionMatrix2) : ConfusionMatrix2 :=
  ⟨m.TP, m.FP, m.FN, m.TN⟩

/-- `ACC`: accuracy, `_div(TP + TN, grand_total)`. -/
def ACC (m : ConfusionMatrix2) : PyFloat :=
  pydiv (m.TP + m.TN) m.grand_total

/-- `PPV`: precision, `_div(TP, TP + FP)`. -/
def PPV (m : ConfusionMatrix2) : PyFloat :=
  pydiv m.TP (m.TP + m.FP)

/-- `NPV`: negative predictive value, `_div(TN, TN + FN)`. -/
def NPV (m : ConfusionMatrix2) : PyFloat :=
  pydiv m.TN (m.TN + m.FN)

/-- `TPR`: recall, `_div(TP, TP + FN)`. -/
def TPR (m : ConfusionMatrix2) : PyFloat :=
  pydiv m.TP (m.TP + m.FN)

/-- `FPR`: fallout, `_div(FP, TN + FP)`. -/
def FPR (m : ConfusionMatrix2) : PyFloat :=
  pydiv m.FP (m.TN + m.FP)

/-- `TNR`: specificity, `_div(TN, FP + TN)`. -/
def TNR (m : ConfusionMatrix2) : PyFloat :=
  pydiv m.TN (m.FP + m.TN)

/-- `FNR`: miss rate, `_div(FN, TP + FN)`. -/
def FNR (m : ConfusionMatrix2) : PyFloat :=
  pydiv m.FN (m.TP + m.FN)

/-- `FDR`: false discovery rate, `_div(FP, TP + FP)`. -/
def FDR (m : ConfusionMatrix2) : PyFloat :=
  pydiv m.FP (m.TP + m.FP)

/-- `FOR`: false omission rate, `_div(FN, TN + FN)`. -/
def FOR (m : ConfusionMatrix2) : PyFloat :=
  pydiv m.FN (m.TN + m.FN)

/-- `DOR`: diagnostic odds ratio, `_div(TP * TN, FP * FN)`. -/
def DOR (m : ConfusionMatrix2) : PyFloat :=
  pydiv (m.TP * m.TN) (m.FP * m.FN)

/-- `rogers_tanimoto_coeff`: `_div(a + d, (a + d) + 2 * (b + c))`. -/
def rogers_tanimoto_coeff (m : ConfusionMatrix2) : PyFloat :=
  pydiv (m.TP + m.TN) ((m.TP + m.TN) + 2 * (m.FN + m.FP))

/-- `gower_legendre_coeff`: `_div(a + d, (a + d) + 0.5 * (b + c))`. -/
def gower_legendre_coeff (m : ConfusionMatrix2) : PyFloat :=
  pydiv (m.TP + m.TN) ((m.TP + m.TN) + (1 / 2 : ℚ) * (m.FN + m.FP))

/-- `sokal_sneath_coeff`: `_div(a, a + 2 * (b + c))`. -/
def sokal_sneath_coeff (m : ConfusionMatrix2) : PyFloat :=
  pydiv m.TP (m.TP + 2 * (m.FN + m.FP))

/-- `prevalence_index`: `_div(abs(TP - TN), grand_total)`. -/
def prevalence_index (m : ConfusionMatrix2) : PyFloat :=
  pydiv |m.TP - m.TN| m.grand_total

/-- `bias_index`: `_div(abs(FN - FP), grand_total)`. -/
def bias_index (m : ConfusionMatrix2) : PyFloat :=
  pydiv |m.FN - m.FP| m.grand_total

/-- `informedness`: `_div(covar, p1 * q1)`. -/
def informedness (m : ConfusionMatrix2) : PyFloat :=
  pydiv m.covar (m.p1 * m.q1)

/-- `markedness`: `_div(covar, p2 * q2)`. -/
def markedness (m : ConfusionMatrix2) : PyFloat :=
  pydiv m.covar (m.p2 * m.q2)

/-- `kappa0`: `_div(covar, p2 * q1)`. -/
def kappa0 (m : ConfusionMatrix2) : PyFloat :=
  pydiv m.covar (m.p2 * m.q1)

/-- `kappa1`: `_div(covar, p1 * q2)`. -/
def kappa1 (m : ConfusionMatrix2) : PyFloat :=
  pydiv m.covar (m.p1 * m.q2)

/-- `loevinger_coeff`: `_div(covar, min(p1 * q2, p2 * q1))`. -/
def loevinger_coeff (m : ConfusionMatrix2) : PyFloat :=
  pydiv m.covar (min (m.p1 * m.q2) (m.p2 * m.q1))

/-- `mp_corr`: Maxwell & Pilliner's index, with the same two edge-case
branches as `kappa`, and otherwise `_div(2 * covar, p1 * q1 + p2 * q2)`. -/
def mp_corr (m : ConfusionMatrix2) : PyFloat :=
  if m.TP = m.grand_total ∨ m.FN = m.grand_total ∨
     m.FP = m.grand_total ∨ m.TN = m.grand_total then .nan
  else if m.p1 = 0 ∨ m.p2 = 0 ∨ m.q1 = 0 ∨ m.q2 = 0 then .val 0
  else pydiv (2 * m.covar) (m.p1 * m.q1 + m.p2 * m.q2)

/-- `yule_q`: `_div(covar, a * d + b * c)`. -/
def yule_q (m : ConfusionMatrix2) : PyFloat :=
  pydiv m.covar (m.TP * m.TN + m.FN * m.FP)

/-- `PLL`: positive likelihood ratio, `_div(TPR(), FPR())` — `_div` applied
to two float operands. -/
def PLL (m : ConfusionMatrix2) : PyFloat :=
  pydivF m.TPR m.FPR

/-- `NLL`: negative likelihood ratio, `_div(FNR(), TNR())`. -/
def NLL (m : ConfusionMatrix2) : PyFloat :=
  pydivF m.FNR m.TNR

/-- `yule_y`: `_div(sqrt(ad) - sqrt(bc), sqrt(ad) + sqrt(bc))` with
`ad = TP * TN`, `bc = FN * FP`.  `math.sqrt` raises `ValueError` on a
negative product; for nonnegative products the denominator is zero exactly
when both products are (then the numerator is too, giving NaN). -/
noncomputable def yule_y (m : ConfusionMatrix2) : Except PyError PyFloatR :=
  if m.TP * m.TN < 0 ∨ m.FN * m.FP < 0 then .error .valueError
  else if m.TP * m.TN = 0 ∧ m.FN * m.FP = 0 then .ok .nan
  else .ok (.val
    ((Real.sqrt ((m.TP * m.TN : ℤ) : ℝ) - Real.sqrt ((m.FN * m.FP : ℤ) : ℝ)) /
     (Real.sqrt ((m.TP * m.TN : ℤ) : ℝ) + Real.sqrt ((m.FN * m.FP : ℤ) : ℝ))))

/-- `entropy_metrics` on the 2x2 matrix: row totals `(p1, q1)`, column
totals `(p2, q2)` and the four cells feed `centropy`. -/
noncomputable def entropy_metrics (m : ConfusionMatrix2) :
    Except PyError (ℝ × ℝ × ℝ) :=
  entropy_metrics_core [m.p1, m.q1] [m.p2, m.q2] [m.TP, m.FN, m.FP, m.TN]

/-- `mi_corr1`: `copysign(1, covar) * sqrt(h)` with `h` the homogeneity
from `entropy_metrics` (nonnegative by construction). -/
noncomputable def mi_corr1 (m : ConfusionMatrix2) : Except PyError PyFloatR :=
  match m.entropy_metrics with
  | .error e => .error e
  | .ok hcr =>
    .ok (.val ((if m.covar < 0 then (-1 : ℝ) else 1) * Real.sqrt hcr.1))

/-- `mi_corr0`: `copysign(1, covar) * sqrt(c)` with `c` the completeness
from `entropy_metrics`. -/
noncomputable def mi_corr0 (m : ConfusionMatrix2) : Except PyError PyFloatR :=
  match m.entropy_metrics with
  | .error e => .error e
  | .ok hcr =>
    .ok (.val ((if m.covar < 0 then (-1 : ℝ) else 1) * Real.sqrt hcr.2.1))

/-- `mi_corr`: `copysign(1, covar) * sqrt(rsquare)` with `rsquare` the
V-measure from `entropy_metrics`. -/
noncomputable def mi_corr (m : ConfusionMatrix2) : Except PyError PyFloatR :=
  match m.entropy_metrics with
  | .error e => .error e
  | .ok hcr =>
    .ok (.val ((if m.covar < 0 then (-1 : ℝ) else 1) * Real.sqrt hcr.2.2))

/-- `ConfusionMatrix2.from_sets(set1, set2)` with `universe_size` omitted:
`TP = |set1 ∩ set2|`, `FP = |set2| - TP`, `FN = |set1| - TP`, `TN = 0`;
returns `cls(TP, FN, FP, TN)`. -/
def from_sets (set1 set2 : Finset ℕ) : ConfusionMatrix2 :=
  ⟨((set1 ∩ set2).card : ℤ),
   (set1.card : ℤ) - ((set1 ∩ set2).card : ℤ),
   (set2.card : ℤ) - ((set1 ∩ set2).card : ℤ),
   0⟩

end ConfusionMatrix2

/-- A (dense rendering of the) sparse RxC contingency table
(`TableOfCounts` of `pymaptools.containers`, the external base class of
`ContingencyTable`; its count store and margins are described in spec §3):
`cell r c` is the count at row key `r`, column key `c`, and all nonzero
counts live at `r < R`, `c < C`.  Iterating over all `r < R`, `c < C`
includes zero cells, which contribute 0 to every sum the metrics take, so
this dense iteration agrees with the source's sparse one. -/
structure ContingencyTable where
  R : ℕ
  C : ℕ
  cell : ℕ → ℕ → ℕ

namespace ContingencyTable

/-- Row total (margin) of row `r`: sum of the row's cells. -/
def rowTotal (t : ContingencyTable) (r : ℕ) : ℕ :=
  ∑ c ∈ Finset.range t.C, t.cell r c

/-- Column total (margin) of column `c`: sum of the column's cells. -/
def colTotal (t : ContingencyTable) (c : ℕ) : ℕ :=
  ∑ r ∈ Finset.range t.R, t.cell r c

/-- Grand total: sum of all counts. -/
def grand_total (t : ContingencyTable) : ℕ :=
  ∑ r ∈ Finset.range t.R, ∑ c ∈ Finset.range t.C, t.cell r c

/-- `sum(nchoose2(b) for b in iter_row_totals())`. -/
def actual_positives (t : ContingencyTable) : ℕ :=
  ∑ r ∈ Finset.range t.R, nchoose2 (t.rowTotal r)

/-- `sum(nchoose2(a) for a in iter_col_totals())`. -/
def called_positives (t : ContingencyTable) : ℕ :=
  ∑ c ∈ Finset.range t.C, nchoose2 (t.colTotal c)

/-- `sum(nchoose2(cell) for cell in iter_cells())`. -/
def pairTP (t : ContingencyTable) : ℕ :=
  ∑ r ∈ Finset.range t.R, ∑ c ∈ Finset.range t.C, nchoose2 (t.cell r c)

/-- `ClusteringMetrics.coassoc_`: the pairwise co-association confusion
matrix, derived from the RxC table by margin-based binomial sums:
`TP = Σ C(cell,2)`, `FN = actual_positives - TP`, `FP = called_positives - TP`,
`TN = C(N,2) - TP - FP - FN`, assembled with
`ConfusionMatrix2.from_ccw(TP, FP, TN, FN)`. -/
def coassoc (t : ContingencyTable) : ConfusionMatrix2 :=
  ConfusionMatrix2.from_ccw
    (t.pairTP : ℤ)
    ((t.called_positives : ℤ) - (t.pairTP : ℤ))
    ((nchoose2 t.grand_total : ℤ) - (t.pairTP : ℤ)
      - ((t.called_positives : ℤ) - (t.pairTP : ℤ))
      - ((t.actual_positives : ℤ) - (t.pairTP : ℤ)))
    ((t.actual_positives : ℤ) - (t.pairTP : ℤ))

/-- `from_labels(labels_true, labels_pred)` (constructor inherited from the
external `TableOfCounts`; spec §3 construction mode (a)): built from two
equal-length sequences of labels by incrementing the count of each
(row-label, col-label) pair.  Labels are taken to be naturals; the cell
count of `(r, c)` is the number of positions carrying that label pair. -/
def from_labels (labels_true labels_pred : List ℕ) : ContingencyTable :=
  ⟨labels_true.foldr max 0 + 1,
   labels_pred.foldr max 0 + 1,
   fun r c => (labels_true.zip labels_pred).countP
     (fun p => p.1 == r && p.2 == c)⟩

end ContingencyTable

/-- `adjusted_rand_score(labels_true, labels_pred)`: builds the
`ClusteringMetrics` contingency table from the labels and returns
`ct.coassoc_.kappa()`. -/
def adjusted_rand_score (labels_true labels_pred : List ℕ) : PyFloat :=
  ((ContingencyTable.from_labels labels_true labels_pred).coassoc).kappa

/-- Class-body alias in `ConfusionMatrix2`: `adjusted_rand_index = kappa`. -/
def ConfusionMatrix2.adjusted_rand_index (m : ConfusionMatrix2) : PyFloat :=
  m.kappa

/-- `copysign(1, x)` on an exact rational (no negative zero): `-1` for
negative `x`, `1` otherwise. -/
def psign (x : ℚ) : ℚ :=
  if x < 0 then -1 else 1

/-- `ratio2weights(ratio)`: `lweight = ratio / (1 + ratio)` when
`ratio <= 1`, else the algebraically equal, numerically stable
`1 / (1 + 1 / ratio)`; returns `(lweight, 1 - lweight)`. -/
def ratio2weights (ratio : ℚ) : ℚ × ℚ :=
  let lweight := if ratio ≤ 1 then ratio / (1 + ratio) else 1 / (1 + 1 / ratio)
  (lweight, 1 - lweight)

/-- `geometric_mean_weighted(x, y, ratio)`: raises `ValueError` when
`copysign(1, x) != copysign(1, y)` and `x != y`; otherwise returns
`lsign * abs(x) ** rweight * abs(y) ** lweight`. -/
noncomputable def geometric_mean_weighted (x y ratio : ℚ) : Except PyError ℝ :=
  let w := ratio2weights ratio
  if psign x ≠ psign y ∧ x ≠ y then .error .valueError
  else .ok ((psign x : ℝ) * (|x| : ℝ) ^ (w.2 : ℝ) * (|y| : ℝ) ^ (w.1 : ℝ))

/-- `harmonic_mean_weighted(x, y, ratio)`: returns `x` when `x == y`, else
`(x * y) / (lweight * x + rweight * y)`; float division raises
`ZeroDivisionError` on a zero denominator.  The source performs no sign
check here. -/
def harmonic_mean_weighted (x y ratio : ℚ) : Except PyError ℚ :=
  let w := ratio2weights ratio
  if x = y then .ok x
  else if w.1 * x + w.2 * y = 0 then .error .zeroDivisionError
  else .ok ((x * y) / (w.1 * x + w.2 * y))

/-- `harmonic_mean_weighted(x, y, ratio)` applied to float operands that
may be NaN or infinite (as `fscore` does with precision and recall):
`float(x) if x == y else (x * y) / (lweight * x + rweight * y)` under
Python float equality and arithmetic, the division raising
`ZeroDivisionError` on an exactly-zero denominator. -/
def harmonic_mean_weighted_float (x y : PyFloat) (ratio : ℚ) :
    Except PyError PyFloat :=
  let w := ratio2weights ratio
  if pyEq x y then .ok x
  else pyDivRaise (pyMul x y) (pyAdd (pyMul (.val w.1) x) (pyMul (.val w.2) y))

/-- `fscore(beta)`: `harmonic_mean_weighted(precision(), recall(), beta ** 2)`
with `precision = PPV` and `recall = TPR`. -/
def ConfusionMatrix2.fscore (m : ConfusionMatrix2) (beta : ℚ) :
    Except PyError PyFloat :=
  harmonic_mean_weighted_float m.PPV m.TPR (beta ^ 2)

/-- The comparison `index > max_index` of `optimal_cutoff`, where the
running maximum starts at `np.NINF`: a finite float exceeds `-Inf` always,
never exceeds `+Inf` or NaN. -/
def gtPyFloat (q : ℚ) (m : PyFloat) : Bool :=
  match m with
  | .ninf => true
  | .pinf => false
  | .nan => false
  | .val x => decide (x < q)

/-- `RocCurve.optimal_cutoff(method)`: scan the `(fpr, tpr)` pairs, keeping
the pair with the strictly largest `method(fpr, tpr)`; the scan starts from
`opt_pair = (nan, nan)`, `max_index = -Inf`, and returns
`(opt_pair, max_index)`.  A curve is its list of `(fpr, tpr)` points. -/
def optimal_cutoff (points : List (ℚ × ℚ)) (method : ℚ → ℚ → ℚ) :
    (PyFloat × PyFloat) × PyFloat :=
  points.foldl
    (fun acc p =>
      if gtPyFloat (method p.1 p.2) acc.2 then
        ((.val p.1, .val p.2), .val (method p.1 p.2))
      else acc)
    ((.nan, .nan), .ninf)

/-- `RocCurve._informedness(fpr, tpr) = tpr - fpr`. -/
def informedness_fn (fpr tpr : ℚ) : ℚ :=
  tpr - fpr

/-- `RocCurve.max_informedness()`: returns
`optimal_cutoff(_informedness)[1]`, the second component only. -/
def max_informedness (points : List (ℚ × ℚ)) : PyFloat :=
  (optimal_cutoff points informedness_fn).2

/-- One step of the stable descending insertion used to model Python's
`sorted(key=itemgetter(0), reverse=True)`: `x` is placed before the first
element whose key does not exceed `x`'s, so equal keys keep their relative
input order. -/
def insortDesc (x : ℕ × ℕ) : List (ℕ × ℕ) → List (ℕ × ℕ)
  | [] => [x]
  | y :: ys => if y.1 ≤ x.1 then x :: y :: ys else y :: insortDesc x ys

/-- Stable sort of `(cluster_size, positive_count)` pairs by descending
cluster size (`sorted(sortable, key=itemgetter(0), reverse=True)`). -/
def sortDesc : List (ℕ × ℕ) → List (ℕ × ℕ)
  | [] => []
  | x :: xs => insortDesc x (sortDesc xs)

/-- The external helper `pymaptools.iter.aggregate_tuples`, applied by
`clustering_aul_score` to the size-sorted list: consecutive pairs sharing
the same first component are merged into `(size, list of counts)` groups
(after the descending sort, this groups clusters by identical size, as spec
§4.5 describes). -/
def aggregate_tuples : List (ℕ × ℕ) → List (ℕ × List ℕ)
  | [] => []
  | (s, p) :: rest =>
    match aggregate_tuples rest with
    | [] => [(s, [p])]
    | (s2, ps) :: groups =>
      if s = s2 then (s, p :: ps) :: groups
      else (s, [p]) :: (s2, ps) :: groups

/-- `sortable` of `clustering_aul_score`: each cluster contributes
`(len(cluster), sum(is_pos(point) for point in cluster))`. -/
def aul_sortable {α : Type} (clusters : List (List α)) (is_pos : α → Bool) :
    List (ℕ × ℕ) :=
  clusters.map (fun cluster => (cluster.length, cluster.countP is_pos))

/-- `data` of `clustering_aul_score`: the size-groups, in descending size
order. -/
def aul_data {α : Type} (clusters : List (List α)) (is_pos : α → Bool) :
    List (ℕ × List ℕ) :=
  aggregate_tuples (sortDesc (aul_sortable clusters is_pos))

/-- `max_horizontal`: total item-slots swept,
`Σ cluster_size * num_clusters` over the size-groups. -/
def aul_max_horizontal (data : List (ℕ × List ℕ)) : ℕ :=
  (data.map (fun g => g.1 * g.2.length)).sum

/-- `max_vertical`: groups of size greater than 1 contribute their full
slot count `cluster_size * num_clusters`; groups of singletons contribute
only their actual positive count `sum(pos_counts)`. -/
def aul_max_vertical (data : List (ℕ × List ℕ)) : ℕ :=
  (data.map (fun g => if 1 < g.1 then g.1 * g.2.length else g.2.sum)).sum

/-- The accumulated step-function area of `clustering_aul_score`'s second
pass: per size-group the mean positive count `avg_pos_count` is added to the
running bin height once per cluster in the group, and each such bin
contributes `bin_height * bin_width` with `bin_width = cluster_size`. -/
def aul_area (data : List (ℕ × List ℕ)) : ℚ :=
  (data.foldl
    (fun acc g =>
      let avg : ℚ := (g.2.sum : ℚ) / (g.2.length : ℚ)
      g.2.foldl (fun a _ => (a.1 + (a.2 + avg) * (g.1 : ℚ), a.2 + avg)) acc)
    ((0 : ℚ), (0 : ℚ))).1

/-- `clustering_aul_score(clusters, is_pos)`: NaN when `max_vertical` is 0,
otherwise the accumulated area divided by `max_vertical * max_horizontal`. -/
def clustering_aul_score {α : Type} (clusters : List (List α))
    (is_pos : α → Bool) : PyFloat :=
  let data := aul_data clusters is_pos
  if aul_max_vertical data = 0 then .nan
  else .val (aul_area data /
    ((aul_max_vertical data : ℚ) * (aul_max_horizontal data : ℚ)))

/-- `chisq_score`: Pearson's chi-square, `Σ (observed - expected)^2 /
expected` over cells whose margin product (hence expected count) is
nonzero, with `expected = row_total * col_total / N`. -/
def ContingencyTable.chisq_score (t : ContingencyTable) : ℚ :=
  ∑ r ∈ Finset.range t.R, ∑ c ∈ Finset.range t.C,
    if t.rowTotal r * t.colTotal c = 0 then 0
    else ((t.cell r c : ℚ) -
        (t.rowTotal r * t.colTotal c : ℚ) / (t.grand_total : ℚ)) ^ 2 /
      ((t.rowTotal r * t.colTotal c : ℚ) / (t.grand_total : ℚ))

/-- `split_join_distance`: `2 * N - Σ max(row) - Σ max(col)` (van Dongen
projection distance); the maxima range over each row's (resp. column's)
cell values. -/
def ContingencyTable.split_join_distance (t : ContingencyTable) : ℤ :=
  2 * (t.grand_total : ℤ) -
    (((∑ r ∈ Finset.range t.R, (Finset.range t.C).sup (t.cell r) : ℕ)) : ℤ) -
    (((∑ c ∈ Finset.range t.C,
        (Finset.range t.R).sup (fun r => t.cell r c) : ℕ)) : ℤ)

/-- The table's row totals in row-key order, as Python ints
(`row_totals.values()`). -/
def ContingencyTable.rowTotalsList (t : ContingencyTable) : List ℤ :=
  (List.range t.R).map (fun r => (t.rowTotal r : ℤ))

/-- The table's column totals in column-key order
(`col_totals.values()`). -/
def ContingencyTable.colTotalsList (t : ContingencyTable) : List ℤ :=
  (List.range t.C).map (fun c => (t.colTotal c : ℤ))

/-- The table's cells in row-major order (`iter_cells()`); zero cells are
harmless extras since `centropy` skips zero counts. -/
def ContingencyTable.cellsList (t : ContingencyTable) : List ℤ :=
  (List.range t.R).flatMap
    (fun r => (List.range t.C).map (fun c => (t.cell r c : ℤ)))

/-- `entropy_metrics` on the table: homogeneity, completeness and V-measure
from the `centropy` of row totals, column totals and cells (the error
branch of `centropy` is unreachable here since table counts are
nonnegative, but the structure mirrors the source). -/
noncomputable def ContingencyTable.entropy_metrics (t : ContingencyTable) :
    Except PyError (ℝ × ℝ × ℝ) :=
  entropy_metrics_core t.rowTotalsList t.colTotalsList t.cellsList

/-- `mutual_info_score`: `I_CK / grand_total`, where
`I_CK = H_C + H_K - H_actual` is not itself normalized; the division by
the int `grand_total` raises `ZeroDivisionError` on an empty table. -/
noncomputable def ContingencyTable.mutual_info_score (t : ContingencyTable) :
    Except PyError ℝ :=
  if t.grand_total = 0 then .error .zeroDivisionError
  else .ok ((centropyVal t.rowTotalsList + centropyVal t.colTotalsList -
      centropyVal t.cellsList) / (t.grand_total : ℝ))

/-- `g_score`: `2.0 * I_CK`, un-normalized. -/
noncomputable def ContingencyTable.g_score (t : ContingencyTable) : ℝ :=
  2 * (centropyVal t.rowTotalsList + centropyVal t.colTotalsList -
    centropyVal t.cellsList)

/-- `vi_distance(base)`: `((H_C - I) + (H_K - I)) / (ln(base) * N)`;
`math.log` raises `ValueError` for `base <= 0`, and the float division
raises `ZeroDivisionError` when `ln(base) * N` is zero (empty table or
`base = 1`). -/
noncomputable def ContingencyTable.vi_distance (t : ContingencyTable)
    (base : ℚ) : Except PyError ℝ :=
  let hc := centropyVal t.rowTotalsList
  let hk := centropyVal t.colTotalsList
  let i := hc + hk - centropyVal t.cellsList
  if base ≤ 0 then .error .valueError
  else if Real.log (base : ℝ) * (t.grand_total : ℝ) = 0 then
    .error .zeroDivisionError
  else .ok (((hc - i) + (hk - i)) / (Real.log (base : ℝ) * (t.grand_total : ℝ)))

/-- `talburt_wang_index`: `sqrt(|rows| * |cols|) / V_card` where `|rows|`
and `|cols|` count the table's (nonzero) rows and columns and `V_card`
counts the distinct nonzero cells; NaN when the row-column product is 0. -/
noncomputable def ContingencyTable.talburt_wang_index (t : ContingencyTable) :
    PyFloatR :=
  let aCard := ((Finset.range t.R).filter (fun r => t.rowTotal r ≠ 0)).card
  let bCard := ((Finset.range t.C).filter (fun c => t.colTotal c ≠ 0)).card
  let vCard := ∑ r ∈ Finset.range t.R,
    ((Finset.range t.C).filter (fun c => t.cell r c ≠ 0)).card
  if aCard * bCard = 0 then .nan
  else .val (Real.sqrt ((aCard * bCard : ℕ) : ℝ) / (vCard : ℕ))

/-- `ClusteringMetrics.adjusted_jaccard_coeff`: the Albatineh and
Niewiadomska-Bugaj chance correction of `coassoc_.jaccard_coeff()` with
`P = 2(TP + FN)`, `Q = 2(TP + FP)`,
`PnQn_over_nsq = (P + n)(Q + n) / n^2` (a float division raising on
`n = 0`), `expected = (PnQn_over_nsq - n) / ((P + Q + n) - PnQn_over_nsq)`
(raising when that denominator is zero), and
`(coeff - expected) / (1 - expected)` in float arithmetic (raising when
`expected` is 1). -/
def ClusteringMetrics.adjusted_jaccard_coeff (t : ContingencyTable) :
    Except PyError PyFloat :=
  let co := t.coassoc
  let n : ℤ := (t.grand_total : ℤ)
  let P : ℤ := 2 * (co.TP + co.FN)
  let Q : ℤ := 2 * (co.TP + co.FP)
  if n = 0 then .error .zeroDivisionError
  else
    let pnqn : ℚ := (((P + n) * (Q + n) : ℤ) : ℚ) / (((n ^ 2 : ℤ)) : ℚ)
    let denom : ℚ := ((P + Q + n : ℤ) : ℚ) - pnqn
    if denom = 0 then .error .zeroDivisionError
    else
      let expected : ℚ := (pnqn - (n : ℚ)) / denom
      pyDivRaise (pySub co.jaccard_coeff (.val expected)) (.val (1 - expected))

/-- `ClusteringMetrics.adjusted_sokal_sneath_coeff`: same correction
applied to `coassoc_.sokal_sneath_coeff()` with
`denom = 2(P + Q + 2n) - n - 3 * PnQn_over_nsq`. -/
def ClusteringMetrics.adjusted_sokal_sneath_coeff (t : ContingencyTable) :
    Except PyError PyFloat :=
  let co := t.coassoc
  let n : ℤ := (t.grand_total : ℤ)
  let P : ℤ := 2 * (co.TP + co.FN)
  let Q : ℤ := 2 * (co.TP + co.FP)
  if n = 0 then .error .zeroDivisionError
  else
    let pnqn : ℚ := (((P + n) * (Q + n) : ℤ) : ℚ) / (((n ^ 2 : ℤ)) : ℚ)
    let denom : ℚ := ((2 * (P + Q + 2 * n) - n : ℤ) : ℚ) - 3 * pnqn
    if denom = 0 then .error .zeroDivisionError
    else
      let expected : ℚ := (pnqn - (n : ℚ)) / denom
      pyDivRaise (pySub co.sokal_sneath_coeff (.val expected))
        (.val (1 - expected))

/-- `ClusteringMetrics.adjusted_rogers_tanimoto_coeff`: same correction
applied to `coassoc_.rogers_tanimoto_coeff()` with `nn1 = n(n-1)`,
`PQ2n = P + Q + 2n`, `numer = 2 * PnQn_over_nsq + nn1 - PQ2n`,
`denom = PQ2n + nn1 - 2 * PnQn_over_nsq`. -/
def ClusteringMetrics.adjusted_rogers_tanimoto_coeff (t : ContingencyTable) :
    Except PyError PyFloat :=
  let co := t.coassoc
  let n : ℤ := (t.grand_total : ℤ)
  let P : ℤ := 2 * (co.TP + co.FN)
  let Q : ℤ := 2 * (co.TP + co.FP)
  if n = 0 then .error .zeroDivisionError
  else
    let pnqn : ℚ := (((P + n) * (Q + n) : ℤ) : ℚ) / (((n ^ 2 : ℤ)) : ℚ)
    let numer : ℚ := 2 * pnqn + ((n * (n - 1) : ℤ) : ℚ) - ((P + Q + 2 * n : ℤ) : ℚ)
    let denom : ℚ := ((P + Q + 2 * n : ℤ) : ℚ) + ((n * (n - 1) : ℤ) : ℚ) - 2 * pnqn
    if denom = 0 then .error .zeroDivisionError
    else
      let expected : ℚ := numer / denom
      pyDivRaise (pySub co.rogers_tanimoto_coeff (.val expected))
        (.val (1 - expected))

/-- `ClusteringMetrics.adjusted_gower_legendre_coeff`: same correction
applied to `coassoc_.gower_legendre_coeff()` with the same `numer` as the
Rogers-Tanimoto variant and
`denom = PnQn_over_nsq + nn1 - 0.5 * PQ2n`. -/
def ClusteringMetrics.adjusted_gower_legendre_coeff (t : ContingencyTable) :
    Except PyError PyFloat :=
  let co := t.coassoc
  let n : ℤ := (t.grand_total : ℤ)
  let P : ℤ := 2 * (co.TP + co.FN)
  let Q : ℤ := 2 * (co.TP + co.FP)
  if n = 0 then .error .zeroDivisionError
  else
    let pnqn : ℚ := (((P + n) * (Q + n) : ℤ) : ℚ) / (((n ^ 2 : ℤ)) : ℚ)
    let numer : ℚ := 2 * pnqn + ((n * (n - 1) : ℤ) : ℚ) - ((P + Q + 2 * n : ℤ) : ℚ)
    let denom : ℚ := pnqn + ((n * (n - 1) : ℤ) : ℚ) - (1 / 2 : ℚ) * ((P + Q + 2 * n : ℤ) : ℚ)
    if denom = 0 then .error .zeroDivisionError
    else
      let expected : ℚ := numer / denom
      pyDivRaise (pySub co.gower_legendre_coeff (.val expected))
        (.val (1 - expected))

/-- The scalar returned by a scoring method: a (possibly NaN/infinite)
float; a float or real that may come with a raised exception; a plain
real (`g_score`); a real-payload float (`talburt_wang_index`); a
homogeneity/completeness/V-measure triple; or a Python int (`covar`,
`split_join_distance`). -/
inductive ScoreValue where
  | float (v : PyFloat)
  | efloat (v : Except PyError PyFloatR)
  | efloatQ (v : Except PyError PyFloat)
  | ereal (v : Except PyError ℝ)
  | real (v : ℝ)
  | rfloat (v : PyFloatR)
  | etriple (v : Except PyError (ℝ × ℝ × ℝ))
  | int (z : ℤ)

/-- The contingency-table-level scoring methods reachable through
`get_score`'s first attribute lookup, as a name-to-method table (spec §9
prescribes exactly this closed-registry rendering of Python's `getattr`
dispatch).  It carries every scoring method of the source's
`ContingencyTable` and `ClusteringMetrics` bodies, with argument-taking
methods at the defaults a bare `get_score(name)` call uses
(`vi_distance` at base 2); converters, constructors and plain data
attributes are not scoring methods and lie outside the registry. -/
noncomputable def table_registry :
    List (String × (ContingencyTable → ScoreValue)) :=
  [("chisq_score", fun t => .float (.val t.chisq_score)),
   ("split_join_distance", fun t => .int t.split_join_distance),
   ("vi_distance", fun t => .ereal (t.vi_distance 2)),
   ("talburt_wang_index", fun t => .rfloat t.talburt_wang_index),
   ("mutual_info_score", fun t => .ereal t.mutual_info_score),
   ("g_score", fun t => .real t.g_score),
   ("entropy_metrics", fun t => .etriple t.entropy_metrics),
   ("adjusted_jaccard_coeff",
     fun t => .efloatQ (ClusteringMetrics.adjusted_jaccard_coeff t)),
   ("adjusted_sokal_sneath_coeff",
     fun t => .efloatQ (ClusteringMetrics.adjusted_sokal_sneath_coeff t)),
   ("adjusted_rogers_tanimoto_coeff",
     fun t => .efloatQ (ClusteringMetrics.adjusted_rogers_tanimoto_coeff t)),
   ("adjusted_gower_legendre_coeff",
     fun t => .efloatQ (ClusteringMetrics.adjusted_gower_legendre_coeff t))]

/-- The `ConfusionMatrix2`-level scoring methods (including the class-body
aliases) reachable through `get_score`, as a name-to-method table modelling
Python's `getattr` dispatch.  It carries every scoring method and alias of
the source's `ConfusionMatrix2` class body, with argument-taking methods at
the defaults a bare `get_score(name)` call uses (`fscore` at beta 1);
converters, constructors and plain data attributes are not scoring methods
and lie outside the registry. -/
noncomputable def confusion_registry :
    List (String × (ConfusionMatrix2 → ScoreValue)) :=
  [("ACC", fun m => .float m.ACC),
   ("PPV", fun m => .float m.PPV),
   ("NPV", fun m => .float m.NPV),
   ("TPR", fun m => .float m.TPR),
   ("FPR", fun m => .float m.FPR),
   ("TNR", fun m => .float m.TNR),
   ("FNR", fun m => .float m.FNR),
   ("FDR", fun m => .float m.FDR),
   ("FOR", fun m => .float m.FOR),
   ("PLL", fun m => .float m.PLL),
   ("NLL", fun m => .float m.NLL),
   ("DOR", fun m => .float m.DOR),
   ("fscore", fun m => .efloatQ (m.fscore 1)),
   ("dice_coeff", fun m => .float m.dice_coeff),
   ("rogers_tanimoto_coeff", fun m => .float m.rogers_tanimoto_coeff),
   ("gower_legendre_coeff", fun m => .float m.gower_legendre_coeff),
   ("jaccard_coeff", fun m => .float m.jaccard_coeff),
   ("ochiai_coeff", fun m => .efloat m.ochiai_coeff),
   ("sokal_sneath_coeff", fun m => .float m.sokal_sneath_coeff),
   ("prevalence_index", fun m => .float m.prevalence_index),
   ("bias_index", fun m => .float m.bias_index),
   ("informedness", fun m => .float m.informedness),
   ("markedness", fun m => .float m.markedness),
   ("kappa0", fun m => .float m.kappa0),
   ("kappa1", fun m => .float m.kappa1),
   ("loevinger_coeff", fun m => .float m.loevinger_coeff),
   ("kappa", fun m => .float m.kappa),
   ("mp_corr", fun m => .float m.mp_corr),
   ("matthews_corr", fun m => .efloat m.matthews_corr),
   ("mi_corr1", fun m => .efloat m.mi_corr1),
   ("mi_corr0", fun m => .efloat m.mi_corr0),
   ("mi_corr", fun m => .efloat m.mi_corr),
   ("yule_q", fun m => .float m.yule_q),
   ("yule_y", fun m => .efloat m.yule_y),
   ("entropy_metrics", fun m => .etriple m.entropy_metrics),
   ("covar", fun m => .int m.covar),
   ("precision", fun m => .float m.PPV),
   ("recall", fun m => .float m.TPR),
   ("fallout", fun m => .float m.FPR),
   ("accuracy", fun m => .float m.ACC),
   ("sensitivity", fun m => .float m.TPR),
   ("specificity", fun m => .float m.TNR),
   ("hit_rate", fun m => .float m.TPR),
   ("miss_rate", fun m => .float m.FNR),
   ("sm_coeff", fun m => .float m.ACC),
   ("phi_coeff", fun m => .efloat m.matthews_corr),
   ("rand_index", fun m => .float m.ACC),
   ("adjusted_rand_index", fun m => .float m.adjusted_rand_index),
   ("fowlkes_mallows", fun m => .efloat m.ochiai_coeff)]

/-- `ConfusionMatrix2.get_score(scoring_method)`: look the name up on the
matrix itself and run it; a failed lookup surfaces Python's built-in
`AttributeError` (the source defines no custom error class for this). -/
noncomputable def ConfusionMatrix2.get_score (m : ConfusionMatrix2)
    (scoring_method : String) : Except PyError ScoreValue :=
  match confusion_registry.lookup scoring_method with
  | some f => .ok (f m)
  | none => .error .attributeError

/-- `ClusteringMetrics.get_score(scoring_method)`: try the name on the
table itself; on `AttributeError` retry on the derived `coassoc_` matrix; a
second failure surfaces the built-in `AttributeError` to the caller. -/
noncomputable def ClusteringMetrics.get_score (t : ContingencyTable)
    (scoring_method : String) : Except PyError ScoreValue :=
  match table_registry.lookup scoring_method with
  | some f => .ok (f t)
  | none =>
    match confusion_registry.lookup scoring_method with
    | some g => .ok (g t.coassoc)
    | none => .error .attributeError

/-! ## Theorems -/

/-- C1: for every pair of (exact) numbers, the safe division `_div` returns
NaN when `denom = 0` and `numer = 0`, `+Inf` when `denom = 0` and
`numer > 0`, `-Inf` when `denom = 0` and `numer < 0`, and the exact
quotient `numer / denom` when `denom` is nonzero; in particular
`div(6,3) = 2`, `div(0,0)` is NaN, `div(5,0) = +Inf`, `div(-5,0) = -Inf`. -/
theorem div_convention :
    (∀ numer denom : ℚ,
      (denom = 0 ∧ numer = 0 → pydiv numer denom = .nan) ∧
      (denom = 0 ∧ 0 < numer → pydiv numer denom = .pinf) ∧
      (denom = 0 ∧ numer < 0 → pydiv numer denom = .ninf) ∧
      (denom ≠ 0 → pydiv numer denom = .val (numer / denom))) ∧
    pydiv 6 3 = .val 2 ∧ pydiv 0 0 = .nan ∧
    pydiv 5 0 = .pinf ∧ pydiv (-5) 0 = .ninf := by
  refine ⟨fun numer denom => ⟨?_, ?_, ?_, ?_⟩, by norm_num [pydiv],
    by norm_num [pydiv], by norm_num [pydiv], by norm_num [pydiv]⟩
  · rintro ⟨hd, hn⟩
    simp [pydiv, hd, hn]
  · rintro ⟨hd, hn⟩
    simp [pydiv, hd, hn.ne.symm, hn]
  · rintro ⟨hd, hn⟩
    simp [pydiv, hd, hn.ne, not_lt.mpr hn.le]
  · intro hd
    simp [pydiv, hd]

/-- Witness for C1: instantiates the quantified part at `(5, 0)`,
discharging the `denom = 0 ∧ 0 < numer` hypothesis there. -/
theorem div_convention_witness :
    ((0 : ℚ) = 0 ∧ (0 : ℚ) < 5) ∧ pydiv 5 0 = .pinf :=
  ⟨⟨rfl, by norm_num⟩, (div_convention.1 5 0).2.1 ⟨rfl, by norm_num⟩⟩

/-- C3: for every contingency table, the derived co-association matrix has
`TP = Σ C(cell,2)` over the cells, `FN = Σ C(row_total,2) - TP`,
`FP = Σ C(col_total,2) - TP`, `TN = C(N,2) - TP - FP - FN`, and
consequently `TP + FP + TN + FN = C(N,2)`. -/
theorem coassoc_margin_sums (t : ContingencyTable) :
    t.coassoc.TP = (t.pairTP : ℤ) ∧
    t.coassoc.FN = (t.actual_positives : ℤ) - (t.pairTP : ℤ) ∧
    t.coassoc.FP = (t.called_positives : ℤ) - (t.pairTP : ℤ) ∧
    t.coassoc.TN = (nchoose2 t.grand_total : ℤ)
      - t.coassoc.TP - t.coassoc.FP - t.coassoc.FN ∧
    t.coassoc.TP + t.coassoc.FP + t.coassoc.TN + t.coassoc.FN
      = (nchoose2 t.grand_total : ℤ) := by
  refine ⟨rfl, rfl, rfl, rfl, ?_⟩
  simp only [ContingencyTable.coassoc, ConfusionMatrix2.from_ccw]
  ring

/-- C10: `from_sets(set1, set2)` with `universe_size` omitted yields
`TP = |set1 ∩ set2|`, `FN = |set1| - TP`, `FP = |set2| - TP`, `TN = 0`,
and its grand total equals `|set1 ∪ set2|`. -/
theorem from_sets_default_tn (set1 set2 : Finset ℕ) :
    (ConfusionMatrix2.from_sets set1 set2).TP = ((set1 ∩ set2).card : ℤ) ∧
    (ConfusionMatrix2.from_sets set1 set2).FN
      = (set1.card : ℤ) - ((set1 ∩ set2).card : ℤ) ∧
    (ConfusionMatrix2.from_sets set1 set2).FP
      = (set2.card : ℤ) - ((set1 ∩ set2).card : ℤ) ∧
    (ConfusionMatrix2.from_sets set1 set2).TN = 0 ∧
    (ConfusionMatrix2.from_sets set1 set2).grand_total
      = ((set1 ∪ set2).card : ℤ) := by
  refine ⟨rfl, rfl, rfl, rfl, ?_⟩
  have h := Finset.card_union_add_card_inter set1 set2
  simp only [ConfusionMatrix2.from_sets, ConfusionMatrix2.grand_total]
  omega

/-- C4: `adjusted_rand_score` equals the `kappa()` of the co-association
matrix derived from the labels' contingency table, `adjusted_rand_index` is
an alias of `kappa`, and on the Yeung-Ruzzo example the score is exactly
`266/851`, which rounds to `0.313` at 3 decimal places
(`round(1000 * x) = 313`). -/
theorem adjusted_rand_is_coassoc_kappa :
    (∀ labels_true labels_pred : List ℕ,
      adjusted_rand_score labels_true labels_pred
        = ((ContingencyTable.from_labels labels_true labels_pred).coassoc).kappa) ∧
    (∀ m : ConfusionMatrix2, m.adjusted_rand_index = m.kappa) ∧
    adjusted_rand_score [1, 1, 2, 2, 2, 2, 3, 3, 3, 3]
        [1, 2, 1, 2, 2, 3, 3, 3, 3, 3] = .val (266 / 851) ∧
    round ((266 : ℚ) / 851 * 1000) = 313 := by
  refine ⟨fun lt lp => rfl, fun m => rfl, ?_, by norm_num [round_eq]⟩
  have h : (ContingencyTable.from_labels [1, 1, 2, 2, 2, 2, 3, 3, 3, 3]
      [1, 2, 1, 2, 2, 3, 3, 3, 3, 3]).coassoc = ⟨7, 6, 7, 25⟩ := by decide
  rw [adjusted_rand_score, h]
  norm_num [ConfusionMatrix2.kappa, pydiv, ConfusionMatrix2.grand_total,
    ConfusionMatrix2.p1, ConfusionMatrix2.q1, ConfusionMatrix2.p2,
    ConfusionMatrix2.q2, ConfusionMatrix2.covar]

/-- The property claimed of `kappa` and `matthews_corr` on a 2x2 table:
NaN when a single cell holds the whole grand total; 0.0 when exactly one
margin is zero while the other three are nonzero; otherwise the closed
forms `2*covar / (p1*q2 + p2*q1)` and `covar / sqrt(p1*q1*p2*q2)`. -/
def KappaMatthewsProp (m : ConfusionMatrix2) : Prop :=
  ((m.TP = m.grand_total ∨ m.FN = m.grand_total ∨
    m.FP = m.grand_total ∨ m.TN = m.grand_total) →
      m.kappa = .nan ∧ m.matthews_corr = .ok .nan) ∧
  ((m.p1 = 0 ∧ m.q1 ≠ 0 ∧ m.p2 ≠ 0 ∧ m.q2 ≠ 0) ∨
   (m.q1 = 0 ∧ m.p1 ≠ 0 ∧ m.p2 ≠ 0 ∧ m.q2 ≠ 0) ∨
   (m.p2 = 0 ∧ m.p1 ≠ 0 ∧ m.q1 ≠ 0 ∧ m.q2 ≠ 0) ∨
   (m.q2 = 0 ∧ m.p1 ≠ 0 ∧ m.q1 ≠ 0 ∧ m.p2 ≠ 0) →
      m.kappa = .val 0 ∧ m.matthews_corr = .ok (.val 0)) ∧
  (¬(m.TP = m.grand_total ∨ m.FN = m.grand_total ∨
     m.FP = m.grand_total ∨ m.TN = m.grand_total) →
   ¬((m.p1 = 0 ∧ m.q1 ≠ 0 ∧ m.p2 ≠ 0 ∧ m.q2 ≠ 0) ∨
     (m.q1 = 0 ∧ m.p1 ≠ 0 ∧ m.p2 ≠ 0 ∧ m.q2 ≠ 0) ∨
     (m.p2 = 0 ∧ m.p1 ≠ 0 ∧ m.q1 ≠ 0 ∧ m.q2 ≠ 0) ∨
     (m.q2 = 0 ∧ m.p1 ≠ 0 ∧ m.q1 ≠ 0 ∧ m.p2 ≠ 0)) →
      m.kappa = .val (((2 * m.covar : ℤ) : ℚ)
          / ((m.p1 * m.q2 + m.p2 * m.q1 : ℤ) : ℚ)) ∧
      m.matthews_corr = .ok (.val ((m.covar : ℝ)
          / Real.sqrt ((m.p1 * m.q1 * m.p2 * m.q2 : ℤ) : ℝ))))

/-- C2: for every 2x2 confusion matrix with nonnegative cells and positive
grand total, `kappa()` and `matthews_corr()` return NaN when a single cell
equals the grand total, 0.0 when exactly one margin is zero while the
others are nonzero, and otherwise `2*covar / (p1*q2 + p2*q1)` resp.
`covar / sqrt(p1*q1*p2*q2)` with `covar = TP*TN - FP*FN`. -/
theorem kappa_matthews_edge_cases (m : ConfusionMatrix2)
    (hTP : 0 ≤ m.TP) (hFN : 0 ≤ m.FN) (hFP : 0 ≤ m.FP) (hTN : 0 ≤ m.TN)
    (hn : 0 < m.grand_total) : KappaMatthewsProp m := by
  refine ⟨fun h => ?_, fun h => ?_, fun h1 h2 => ?_⟩
  · constructor
    · rw [ConfusionMatrix2.kappa, if_pos h]
    · rw [ConfusionMatrix2.matthews_corr, if_pos h]
  · have hcell : ¬(m.TP = m.grand_total ∨ m.FN = m.grand_total ∨
        m.FP = m.grand_total ∨ m.TN = m.grand_total) := by
      simp only [ConfusionMatrix2.p1, ConfusionMatrix2.q1,
        ConfusionMatrix2.p2, ConfusionMatrix2.q2,
        ConfusionMatrix2.grand_total] at h hn ⊢
      omega
    have hmargin : m.p1 = 0 ∨ m.p2 = 0 ∨ m.q1 = 0 ∨ m.q2 = 0 := by tauto
    constructor
    · rw [ConfusionMatrix2.kappa, if_neg hcell, if_pos hmargin]
    · rw [ConfusionMatrix2.matthews_corr, if_neg hcell, if_pos hmargin]
  · have key : 0 < m.p1 ∧ 0 < m.q1 ∧ 0 < m.p2 ∧ 0 < m.q2 := by
      simp only [ConfusionMatrix2.p1, ConfusionMatrix2.q1,
        ConfusionMatrix2.p2, ConfusionMatrix2.q2,
        ConfusionMatrix2.grand_total] at h1 h2 hn ⊢
      omega
    obtain ⟨k1, k2, k3, k4⟩ := key
    have hmargin : ¬(m.p1 = 0 ∨ m.p2 = 0 ∨ m.q1 = 0 ∨ m.q2 = 0) := by
      omega
    constructor
    · rw [ConfusionMatrix2.kappa, if_neg h1, if_neg hmargin]
      have hden : (m.p1 * m.q2 + m.p2 * m.q1 : ℤ) ≠ 0 :=
        (add_pos (mul_pos k1 k4) (mul_pos k3 k2)).ne'
      have hdenq : (m.p1 : ℚ) * (m.q2 : ℚ) + (m.p2 : ℚ) * (m.q1 : ℚ) ≠ 0 := by
        intro hq
        apply hden
        exact_mod_cast hq
      rw [pydiv, if_neg hdenq]
      congr 1
      push_cast
      ring
    · rw [ConfusionMatrix2.matthews_corr, if_neg h1, if_neg hmargin]
      have hrad : (0 : ℤ) < m.p1 * m.q1 * m.p2 * m.q2 :=
        mul_pos (mul_pos (mul_pos k1 k2) k3) k4
      rw [divSqrt, if_neg (not_lt.mpr hrad.le), if_neg hrad.ne']

/-- Witness for C2: the all-ones table has nonnegative cells and grand
total 4 > 0, and the theorem's conclusion holds there. -/
theorem kappa_matthews_edge_cases_witness :
    ((0 : ℤ) ≤ 1 ∧ (0 : ℤ) < (⟨1, 1, 1, 1⟩ : ConfusionMatrix2).grand_total) ∧
    KappaMatthewsProp ⟨1, 1, 1, 1⟩ :=
  ⟨⟨by norm_num, by decide⟩,
    kappa_matthews_edge_cases ⟨1, 1, 1, 1⟩ (by norm_num) (by norm_num)
      (by norm_num) (by norm_num) (by decide)⟩

/-- C9: transposing the 2x2 table (swapping rows with columns, i.e.
exchanging FN and FP while fixing TP and TN) leaves `jaccard_coeff`,
`dice_coeff`, `ochiai_coeff`, `kappa` and `matthews_corr` unchanged. -/
theorem transpose_invariance (m : ConfusionMatrix2) :
    m.transpose.jaccard_coeff = m.jaccard_coeff ∧
    m.transpose.dice_coeff = m.dice_coeff ∧
    m.transpose.ochiai_coeff = m.ochiai_coeff ∧
    m.transpose.kappa = m.kappa ∧
    m.transpose.matthews_corr = m.matthews_corr := by
  refine ⟨?_, ?_, ?_, ?_, ?_⟩
  · simp only [ConfusionMatrix2.jaccard_coeff, ConfusionMatrix2.transpose]
    congr 1
    ring
  · simp only [ConfusionMatrix2.dice_coeff, ConfusionMatrix2.transpose]
    congr 1
    ring
  · simp only [ConfusionMatrix2.ochiai_coeff, ConfusionMatrix2.transpose]
    congr 1
    ring
  · simp only [ConfusionMatrix2.kappa, ConfusionMatrix2.transpose,
      ConfusionMatrix2.grand_total, ConfusionMatrix2.p1, ConfusionMatrix2.q1,
      ConfusionMatrix2.p2, ConfusionMatrix2.q2, ConfusionMatrix2.covar]
    refine if_congr (by omega) rfl (if_congr (by omega) rfl ?_)
    congr 1 <;> push_cast <;> ring
  · simp only [ConfusionMatrix2.matthews_corr, ConfusionMatrix2.transpose,
      ConfusionMatrix2.grand_total, ConfusionMatrix2.p1, ConfusionMatrix2.q1,
      ConfusionMatrix2.p2, ConfusionMatrix2.q2, ConfusionMatrix2.covar]
    refine if_congr (by omega) rfl (if_congr (by omega) rfl ?_)
    congr 1 <;> ring

/-- C7 (amended): `geometric_mean_weighted` raises the signed-value
`ValueError` whenever x and y differ in sign (in the `copysign` sense) and
are unequal; `harmonic_mean_weighted` performs no such check and simply
returns the weighted harmonic mean whenever its denominator is nonzero;
and for every ratio the left weight equals `ratio / (1 + ratio)` with the
right weight its complement. -/
theorem weighted_means_signed_value (x y ratio : ℚ) :
    (psign x ≠ psign y ∧ x ≠ y →
      geometric_mean_weighted x y ratio = .error .valueError) ∧
    (x ≠ y ∧ (ratio2weights ratio).1 * x + (ratio2weights ratio).2 * y ≠ 0 →
      harmonic_mean_weighted x y ratio = .ok ((x * y) /
        ((ratio2weights ratio).1 * x + (ratio2weights ratio).2 * y))) ∧
    ratio2weights ratio = (ratio / (1 + ratio), 1 - ratio / (1 + ratio)) := by
  refine ⟨fun h => ?_, fun h => ?_, ?_⟩
  · rw [geometric_mean_weighted, if_pos h]
  · rw [harmonic_mean_weighted]
    simp only [if_neg h.1, if_neg h.2]
  · rw [ratio2weights]
    split_ifs with h
    · rfl
    · have h1 : 1 < ratio := not_le.mp h
      have h0 : ratio ≠ 0 := by linarith
      have key : 1 / (1 + 1 / ratio) = ratio / (1 + ratio) := by
        rw [one_add_div h0, one_div_div, add_comm]
      rw [key]

/-- Witness for C7's amended theorem: at `(2, -1, 1)` the sign condition
and the nonzero-denominator condition hold concretely. -/
theorem weighted_means_signed_value_witness :
    (psign 2 ≠ psign (-1) ∧ (2 : ℚ) ≠ -1) ∧
    geometric_mean_weighted 2 (-1) 1 = .error .valueError :=
  ⟨⟨by norm_num [psign], by norm_num⟩,
    (weighted_means_signed_value 2 (-1) 1).1
      ⟨by norm_num [psign], by norm_num⟩⟩

/-- Counterexample for C7 as stated: at `x = 2, y = -1` (different signs,
unequal) with ratio 1, `harmonic_mean_weighted` raises no signed-value
error; it returns `-4.0`. -/
theorem harmonic_mean_no_sign_check :
    psign 2 ≠ psign (-1) ∧ (2 : ℚ) ≠ -1 ∧
    harmonic_mean_weighted 2 (-1) 1 = .ok (-4) ∧
    harmonic_mean_weighted 2 (-1) 1 ≠ .error .valueError := by
  have hcalc : harmonic_mean_weighted 2 (-1) 1 = .ok (-4) := by
    norm_num [harmonic_mean_weighted, ratio2weights]
  refine ⟨by norm_num [psign], by norm_num, hcalc, ?_⟩
  rw [hcalc]
  simp

/-- If a finite index value strictly exceeds the running maximum, so does
any larger index value. -/
theorem gtPyFloat_trans (s t : ℚ) (m : PyFloat)
    (h1 : gtPyFloat s m = true) (h2 : s < t) : gtPyFloat t m = true := by
  cases m <;> simp [gtPyFloat] at h1 ⊢
  linarith

/-- An index value that fails the strict comparison against a running
maximum is at most any index value that passes it. -/
theorem gtPyFloat_le (s t : ℚ) (m : PyFloat)
    (hf : gtPyFloat s m = false) (ht : gtPyFloat t m = true) : s ≤ t := by
  cases m <;> simp [gtPyFloat] at hf ht ⊢
  linarith

/-- Invariant of the `optimal_cutoff` scan: the fold either leaves the
accumulator untouched (no scanned point beats its running maximum), or
lands on some scanned point whose index value beats the initial maximum
and is largest among all scanned points. -/
theorem optimal_cutoff_spec (method : ℚ → ℚ → ℚ) :
    ∀ (pts : List (ℚ × ℚ)) (acc : (PyFloat × PyFloat) × PyFloat),
      (pts.foldl (fun acc p =>
          if gtPyFloat (method p.1 p.2) acc.2 then
            ((.val p.1, .val p.2), .val (method p.1 p.2))
          else acc) acc = acc ∧
        ∀ q ∈ pts, gtPyFloat (method q.1 q.2) acc.2 = false) ∨
      (∃ p ∈ pts,
        pts.foldl (fun acc p =>
          if gtPyFloat (method p.1 p.2) acc.2 then
            ((.val p.1, .val p.2), .val (method p.1 p.2))
          else acc) acc = ((.val p.1, .val p.2), .val (method p.1 p.2)) ∧
        gtPyFloat (method p.1 p.2) acc.2 = true ∧
        ∀ q ∈ pts, method q.1 q.2 ≤ method p.1 p.2) := by
  intro pts
  induction pts with
  | nil => exact fun acc => Or.inl ⟨rfl, by simp⟩
  | cons p rest ih =>
    intro acc
    simp only [List.foldl_cons]
    by_cases hc : gtPyFloat (method p.1 p.2) acc.2 = true
    · rw [if_pos hc]
      rcases ih ((PyFloat.val p.1, PyFloat.val p.2),
          PyFloat.val (method p.1 p.2)) with
        ⟨heq, hall⟩ | ⟨r, hr, heq, hgt, hmax⟩
      · right
        refine ⟨p, List.mem_cons_self p rest, heq, hc, fun q hq => ?_⟩
        rcases List.mem_cons.mp hq with rfl | hq2
        · exact le_refl _
        · have h3 := hall q hq2
          simp only [gtPyFloat, decide_eq_false_iff_not, not_lt] at h3
          exact h3
      · right
        have hps : method p.1 p.2 < method r.1 r.2 := by
          simp only [gtPyFloat, decide_eq_true_eq] at hgt
          exact hgt
        refine ⟨r, List.mem_cons_of_mem _ hr, heq,
          gtPyFloat_trans _ _ _ hc hps, fun q hq => ?_⟩
        rcases List.mem_cons.mp hq with rfl | hq2
        · exact hps.le
        · exact hmax q hq2
    · rw [if_neg hc]
      have hcf : gtPyFloat (method p.1 p.2) acc.2 = false :=
        Bool.not_eq_true _ ▸ eq_false_of_ne_true hc
      rcases ih acc with ⟨heq, hall⟩ | ⟨r, hr, heq, hgt, hmax⟩
      · left
        refine ⟨heq, fun q hq => ?_⟩
        rcases List.mem_cons.mp hq with rfl | hq2
        · exact hcf
        · exact hall q hq2
      · right
        refine ⟨r, List.mem_cons_of_mem _ hr, heq, hgt, fun q hq => ?_⟩
        rcases List.mem_cons.mp hq with rfl | hq2
        · exact gtPyFloat_le _ _ _ hcf hgt
        · exact hmax q hq2

/-- C8 (amended): `max_informedness()` scans all curve points for the
maximum of `tpr - fpr` but returns only the score, namely component `[1]`
of `optimal_cutoff`'s `(opt_pair, max_index)` result; on a nonempty curve
`optimal_cutoff` lands on an optimal `(fpr, tpr)` point together with its
score, which bounds `tpr - fpr` over the whole curve. -/
theorem max_informedness_is_max_score (points : List (ℚ × ℚ)) :
    max_informedness points = (optimal_cutoff points informedness_fn).2 ∧
    (points = [] →
      optimal_cutoff points informedness_fn = ((.nan, .nan), .ninf)) ∧
    (points ≠ [] → ∃ p ∈ points,
      optimal_cutoff points informedness_fn
          = ((.val p.1, .val p.2), .val (p.2 - p.1)) ∧
      ∀ q ∈ points, q.2 - q.1 ≤ p.2 - p.1) := by
  refine ⟨rfl, fun h => by rw [h]; rfl, fun h => ?_⟩
  rcases optimal_cutoff_spec informedness_fn points ((.nan, .nan), .ninf) with
    ⟨heq, hall⟩ | ⟨p, hp, heq, hgt2, hmax⟩
  · obtain ⟨q, hq⟩ := List.exists_mem_of_ne_nil points h
    have h2 := hall q hq
    simp [gtPyFloat] at h2
  · exact ⟨p, hp, heq, hmax⟩

/-- Witness for C8's amended theorem: the singleton curve `[(0, 1)]` is
nonempty and `optimal_cutoff` lands on its point. -/
theorem max_informedness_is_max_score_witness :
    ([((0 : ℚ), (1 : ℚ))] ≠ ([] : List (ℚ × ℚ))) ∧
    (∃ p ∈ [((0 : ℚ), (1 : ℚ))],
      optimal_cutoff [((0 : ℚ), (1 : ℚ))] informedness_fn
          = ((.val p.1, .val p.2), .val (p.2 - p.1)) ∧
      ∀ q ∈ [((0 : ℚ), (1 : ℚ))], q.2 - q.1 ≤ p.2 - p.1) :=
  ⟨by simp, (max_informedness_is_max_score _).2.2 (by simp)⟩

/-- Counterexample for C8 as stated: `max_informedness` does not return
the optimal point.  Two one-point curves with distinct optimal `(fpr, tpr)`
points but equal Youden score produce identical `max_informedness` results,
so the result carries no point information. -/
theorem max_informedness_drops_point :
    max_informedness [((0 : ℚ), 1 / 2)] = max_informedness [((1 / 2 : ℚ), 1)] ∧
    (optimal_cutoff [((0 : ℚ), 1 / 2)] informedness_fn).1
      ≠ (optimal_cutoff [((1 / 2 : ℚ), 1)] informedness_fn).1 := by
  constructor
  · norm_num [max_informedness, optimal_cutoff, gtPyFloat, informedness_fn]
  · norm_num [optimal_cutoff, gtPyFloat, informedness_fn]

/-- C5: `clustering_aul_score` returns NaN exactly when `max_vertical`
(which counts full slot counts for size-groups of size above 1 and only the
actual positive counts for singleton groups) is 0; otherwise it returns the
accumulated step-function area divided by `max_vertical * max_horizontal`;
and a single cluster all of whose members are positive (100% of the
positives, no negatives) scores exactly 1.0. -/
theorem clustering_aul_spec {α : Type} (clusters : List (List α))
    (is_pos : α → Bool) :
    (clustering_aul_score clusters is_pos = .nan ↔
      aul_max_vertical (aul_data clusters is_pos) = 0) ∧
    (aul_max_vertical (aul_data clusters is_pos) ≠ 0 →
      clustering_aul_score clusters is_pos
        = .val (aul_area (aul_data clusters is_pos) /
            ((aul_max_vertical (aul_data clusters is_pos) : ℚ)
              * (aul_max_horizontal (aul_data clusters is_pos) : ℚ)))) ∧
    (∀ c : List α, c ≠ [] → (∀ x ∈ c, is_pos x = true) →
      clustering_aul_score [c] is_pos = .val 1) := by
  refine ⟨?_, fun h => by simp [clustering_aul_score, h], fun c hne hpos => ?_⟩
  · by_cases h : aul_max_vertical (aul_data clusters is_pos) = 0 <;>
      simp [clustering_aul_score, h]
  · have hd : aul_data [c] is_pos = [(c.length, [c.length])] := by
      simp [aul_data, aul_sortable, sortDesc, insortDesc, aggregate_tuples,
        List.countP_eq_length.mpr hpos]
    have hn0 : (0 : ℕ) < c.length := List.length_pos.mpr hne
    by_cases h1 : 1 < c.length
    · simp [clustering_aul_score, hd, aul_max_vertical, aul_max_horizontal,
        aul_area, h1, hn0.ne']
    · simp [clustering_aul_score, hd, aul_max_vertical, aul_max_horizontal,
        aul_area, h1, hn0.ne']

/-- Witness for C5: a single 3-element cluster under the all-positive
predicate has nonzero `max_vertical` and scores exactly 1. -/
theorem clustering_aul_spec_witness :
    (([0, 1, 2] : List ℕ) ≠ ([] : List ℕ) ∧
      ∀ x ∈ ([0, 1, 2] : List ℕ), (fun _ => true) x = true) ∧
    clustering_aul_score [[0, 1, 2]] (fun _ : ℕ => true) = .val 1 :=
  ⟨⟨by simp, by simp⟩,
    (clustering_aul_spec [] (fun _ : ℕ => true)).2.2 [0, 1, 2] (by simp)
      (by simp)⟩

/-- C6 (amended): a metric name matching neither a contingency-table-level
method nor a co-association (confusion-matrix-level) method makes
`get_score` fail with Python's built-in `AttributeError` (the source
defines no distinct `MetricNotFoundError`); a matching name invokes the
corresponding method — table level first, then the `coassoc_` level — and
returns its result. -/
theorem get_score_dispatch (t : ContingencyTable) (m : ConfusionMatrix2)
    (name : String) :
    (table_registry.lookup name = none →
      confusion_registry.lookup name = none →
      ClusteringMetrics.get_score t name = .error .attributeError ∧
      ConfusionMatrix2.get_score m name = .error .attributeError) ∧
    (∀ f, table_registry.lookup name = some f →
      ClusteringMetrics.get_score t name = .ok (f t)) ∧
    (∀ g, table_registry.lookup name = none →
      confusion_registry.lookup name = some g →
      ClusteringMetrics.get_score t name = .ok (g t.coassoc)) ∧
    (∀ g, confusion_registry.lookup name = some g →
      ConfusionMatrix2.get_score m name = .ok (g m)) := by
  refine ⟨fun h1 h2 => ⟨?_, ?_⟩, fun f h1 => ?_, fun g h1 h2 => ?_,
    fun g h2 => ?_⟩
  · simp [ClusteringMetrics.get_score, h1, h2]
  · simp [ConfusionMatrix2.get_score, h2]
  · simp [ClusteringMetrics.get_score, h1]
  · simp [ClusteringMetrics.get_score, h1, h2]
  · simp [ConfusionMatrix2.get_score, h2]

/-- Witness for C6's amended theorem: the name `kappa` resolves (at the
co-association level) and `get_score` runs the method. -/
theorem get_score_dispatch_witness :
    confusion_registry.lookup "kappa"
        = some (fun m => ScoreValue.float m.kappa) ∧
    ConfusionMatrix2.get_score ⟨1, 1, 1, 1⟩ "kappa"
        = .ok (ScoreValue.float (ConfusionMatrix2.kappa ⟨1, 1, 1, 1⟩)) :=
  ⟨rfl, (get_score_dispatch ⟨0, 0, fun _ _ => 0⟩ ⟨1, 1, 1, 1⟩ "kappa").2.2.2
    (fun m => ScoreValue.float m.kappa) rfl⟩

/-- Counterexample for C6 as stated: an unknown metric name surfaces the
built-in `AttributeError`, not a distinct `MetricNotFoundError` (no such
class exists in the source). -/
theorem get_score_unknown_is_attribute_error :
    ClusteringMetrics.get_score ⟨0, 0, fun _ _ => 0⟩ "unknown_metric"
        = .error .attributeError ∧
    ClusteringMetrics.get_score ⟨0, 0, fun _ _ => 0⟩ "unknown_metric"
        ≠ .error .metricNotFoundError := by
  have h : ClusteringMetrics.get_score ⟨0, 0, fun _ _ => 0⟩ "unknown_metric"
      = .error .attributeError := rfl
  refine ⟨h, ?_⟩
  rw [h]
  simp

end LshHdc
